import Mathlib

/-!
# Clientwatch — verification of the spec's claims against the source

Shallow embedding of the two source files of `matttdean/clientwatch`:
* the tracker page (`src/unnamed/part_000`): rank engine (`xpToRank`),
  XP mutators (`addXP`), daily challenges (`completeDaily`), top tasks
  (`addTopFromTask`, `addTopCustom`, `toggleTop`), and the Firestore
  sync handlers (snapshot application and the debounced save effect);
* the leads page (`src/src/pages/leads.tsx`): `sanitizeLead`,
  `updateLead`, and `onImportJSON`.

JavaScript numbers that hold XP totals and timestamps are integers in
this program (all additions start from integer literals and are clamped),
so they are modelled as `Int`/`Nat`; the two fractional progress fields
computed by real division are modelled as `ℚ` (the divisions in range are
exact enough that every compared value in the claims is reproduced
exactly). `JSON.stringify` used for the `lastSaved` change detector is
deterministic and injective on the aggregate data model, so comparing
serializations is modelled as comparing the serialized values themselves.
-/

namespace Clientwatch

/-! ## Rank engine (part_000 lines 23-84) -/

/-- `const XP_PER_SUBRANK = 500`. -/
def XP_PER_SUBRANK : Nat := 500

/-- `const SUBRANKS = 5`. -/
def SUBRANKS : Nat := 5

/-- One entry of the `TIERS` array (the rank-irrelevant visual fields are
kept so that `TIERS.length` is the real tier count from the source). -/
structure Tier where
  key : String
  name : String
  subtitle : String
  color : String
deriving DecidableEq, Repr

/-- The `TIERS` constant: eight tiers, Bronze through Top 500. -/
def TIERS : List Tier :=
  [ ⟨"bronze", "Bronze", "Division", "#cd7f32"⟩,
    ⟨"silver", "Silver", "Division", "#c0c0c0"⟩,
    ⟨"gold", "Gold", "Division", "#ffd700"⟩,
    ⟨"platinum", "Platinum", "Division", "#00bfff"⟩,
    ⟨"diamond", "Diamond", "Division", "#b9f2ff"⟩,
    ⟨"master", "Master", "Division", "#800080"⟩,
    ⟨"grandmaster", "Grandmaster", "Division", "#ff4500"⟩,
    ⟨"top500", "Top 500", "Elite", "#ff6bd6"⟩ ]

/-- `tierTotalXP()` — XP span of one tier. -/
def tierTotalXP : Nat := XP_PER_SUBRANK * SUBRANKS

/-- `cumulativeXPAtTierStart(i)`. -/
def cumulativeXPAtTierStart (i : Nat) : Nat := i * tierTotalXP

/-- `maxXPAllTiers`. -/
def maxXPAllTiers : Nat := cumulativeXPAtTierStart TIERS.length

/-- Result record of `xpToRank`.  `subrank` is computed with JavaScript
number subtraction, hence `Int`; the two progress ratios are `ℚ`. -/
structure Rank where
  tierIndex : Nat
  subrank : Int
  withinXP : Nat
  progress : ℚ
  progressWithinSubrank : ℚ
deriving DecidableEq, Repr

/-- The `while (tierIndex < TIERS.length && n >= cumulativeXPAtTierStart(tierIndex)
+ tierTotalXP()) tierIndex++` loop of `xpToRank`, written with an explicit
fuel counter (the loop body runs at most `TIERS.length` times because of the
first conjunct of the guard, so fuel `TIERS.length + 1` never runs out). -/
def xpLoopAux (n : Nat) : Nat → Nat → Nat
  | 0, t => t
  | fuel + 1, t =>
      if t < TIERS.length ∧ cumulativeXPAtTierStart t + tierTotalXP ≤ n then
        xpLoopAux n fuel (t + 1)
      else t

/-- Body of `xpToRank` after the initial clamp (the clamp is applied by
`xpToRank` below; `n` is the clamped value, a natural number). -/
def xpToRankN (n : Nat) : Rank :=
  let tierIndex := xpLoopAux n (TIERS.length + 1) 0
  if TIERS.length ≤ tierIndex then
    { tierIndex := TIERS.length - 1, subrank := 1,
      withinXP := XP_PER_SUBRANK * SUBRANKS, progress := 1,
      progressWithinSubrank := 1 }
  else
    let start := cumulativeXPAtTierStart tierIndex
    let withinTier := n - start
    let subrank : Int := max 1 ((SUBRANKS : Int) - (withinTier / XP_PER_SUBRANK : Nat))
    { tierIndex := tierIndex, subrank := subrank, withinXP := withinTier,
      progress := (withinTier : ℚ) / (tierTotalXP : ℚ),
      progressWithinSubrank :=
        ((withinTier % XP_PER_SUBRANK : Nat) : ℚ) / (XP_PER_SUBRANK : ℚ) }

/-- `xpToRank(xp)`: clamp `n = Math.max(0, Math.min(xp, maxXPAllTiers))`,
then compute the tier, subrank and progress values. -/
def xpToRank (xp : Int) : Rank :=
  xpToRankN (max 0 (min xp (maxXPAllTiers : Int))).toNat

/-! ## Domain store aggregates (part_000 lines 218-232) -/

/-- A saved task (`DEFAULT_TASKS` entry shape): `group` is optional. -/
structure Task where
  id : String
  label : String
  xp : Int
  group : Option String
deriving DecidableEq, Repr

/-- One daily-challenge item `{id, label, xp, done}`. -/
structure DailyItem where
  id : String
  label : String
  xp : Int
  done : Bool
deriving DecidableEq, Repr

/-- The `daily` aggregate `{date, items}`. -/
structure DailySlot where
  date : String
  items : List DailyItem
deriving DecidableEq, Repr

/-- One top-task item `{id, srcId?, label, xp, done}` (`srcId` present only
for items added from a saved task). -/
structure TopItem where
  id : String
  srcId : Option String
  label : String
  xp : Int
  done : Bool
deriving DecidableEq, Repr

/-- The `top` aggregate `{date, items}`. -/
structure TopSlot where
  date : String
  items : List TopItem
deriving DecidableEq, Repr

/-- One todo `{id, label, done}`. -/
structure TodoItem where
  id : String
  label : String
  done : Bool
deriving DecidableEq, Repr

/-- The `todos` aggregate `{items}`. -/
structure TodoSlot where
  items : List TodoItem
deriving DecidableEq, Repr

/-- The five persisted aggregates of `TrackerInner` (`xp`, `tasks`,
`daily`, `top`, `todos`) as one state record. -/
structure AggState where
  xp : Int
  tasks : List Task
  daily : DailySlot
  top : TopSlot
  todos : TodoSlot
deriving DecidableEq, Repr

/-! ## XP mutators and task-list operations (part_000 lines 292-382) -/

/-- `addXP(amount)`: `setXP(v => Math.max(0, Math.min(v + amount, maxXPAllTiers)))`. -/
def addXP (amount : Int) (s : AggState) : AggState :=
  { s with xp := max 0 (min (s.xp + amount) (maxXPAllTiers : Int)) }

/-- `completeDaily(id)` (lines 307-314): map every matching item to
`{...d, done: true}`; if the previous items held an item with this id that
was not yet done (`prev.items.find(d => d.id === id && !d.done)`), grant
its XP through `addXP`. -/
def completeDaily (id : String) (s : AggState) : AggState :=
  let items := s.daily.items.map (fun d => if d.id = id then { d with done := true } else d)
  let justCompleted := s.daily.items.find? (fun d => d.id = id ∧ ¬d.done)
  let s' := match justCompleted with
    | some j => addXP j.xp s
    | none => s
  { s' with daily := { s'.daily with items := items } }

/-- `addTopFromTask(taskId)` (lines 326-335): look the task up; reject when
the list already has 5 items or an exact duplicate (same source id and
label); otherwise append a fresh not-done item.  The random `uid()` for the
new item is passed in as `fresh`. -/
def addTopFromTask (taskId : String) (fresh : String) (s : AggState) : AggState :=
  match s.tasks.find? (fun x => x.id = taskId) with
  | none => s
  | some t =>
      if 5 ≤ s.top.items.length then s
      else if s.top.items.any (fun i => i.srcId = some t.id ∧ i.label = t.label) then s
      else
        { s with top := { s.top with
            items := s.top.items ++ [⟨fresh, some t.id, t.label, t.xp, false⟩] } }

/-- `addTopCustom(label, xpVal)` (lines 336-343): reject a blank label;
clamp the XP below by 1 (`Math.max(1, parseInt(xpVal,10) || 1)`, which for
an integer input is `max 1 xpVal`); reject when the list already has 5
items; otherwise append.  `fresh` stands for the random `uid()`. -/
def addTopCustom (label : String) (xpVal : Int) (fresh : String) (s : AggState) : AggState :=
  if label.trim = "" then s
  else
    let n : Int := max 1 xpVal
    if 5 ≤ s.top.items.length then s
    else
      { s with top := { s.top with
          items := s.top.items ++ [⟨fresh, none, label.trim, n, false⟩] } }

/-- `toggleTop(id)` (lines 344-351): flip `done` on every matching item;
when the first matching item (`prev.items.find(i => i.id === id)`) existed
and was not done, grant its XP through `addXP`; XP is never subtracted. -/
def toggleTop (id : String) (s : AggState) : AggState :=
  let before := s.top.items.find? (fun i => i.id = id)
  let items := s.top.items.map (fun i => if i.id = id then { i with done := ¬i.done } else i)
  let s' := match before with
    | some b => if ¬b.done then addXP b.xp s else s
    | none => s
  { s' with top := { s'.top with items := items } }

/-! ## Cloud sync engine (part_000 lines 250-272 and 385-404)

The snapshot handler and the debounced-save effect communicate through
`fb.current.applying` (the feedback-loop guard) and `fb.current.lastSaved`
(a `JSON.stringify` of the last payload known to be on the remote).
`JSON.stringify` over `{xp, tasks, daily, top, todos}` is deterministic and
injective on this data model, so `lastSaved` is modelled as the payload
value itself (`Option AggState`, `none` standing for the initial `""`). -/

/-- The typed content of a remote snapshot.  A field is `some` exactly when
the corresponding guard of the handler accepts it (`typeof data.xp ===
'number'`, `Array.isArray(data.tasks)`, `data.daily && data.daily.items`,
and so on); an absent or guard-rejected field is `none`. -/
structure SnapData where
  xp : Option Int
  tasks : Option (List Task)
  daily : Option DailySlot
  top : Option TopSlot
  todos : Option TodoSlot
deriving DecidableEq, Repr

/-- The `onSnapshot` handler body (lines 250-272): overwrite each aggregate
whose field passed its guard, and record `lastSaved` as the serialization of
the snapshot with the handler's `?? ` defaults (`xp ?? 0`, `tasks ?? []`,
`daily ?? {date: todayKey(), items: []}`, ...).  Returns the new aggregate
state and the new `lastSaved`.  `today` stands for `todayKey()`. -/
def applySnapshot (s : AggState) (today : String) (snap : SnapData) :
    AggState × Option AggState :=
  let s' : AggState :=
    { xp := snap.xp.getD s.xp
      tasks := snap.tasks.getD s.tasks
      daily := snap.daily.getD s.daily
      top := snap.top.getD s.top
      todos := snap.todos.getD s.todos }
  let payload : AggState :=
    { xp := snap.xp.getD 0
      tasks := snap.tasks.getD []
      daily := snap.daily.getD ⟨today, []⟩
      top := snap.top.getD ⟨today, []⟩
      todos := snap.todos.getD ⟨[]⟩ }
  (s', some payload)

/-- The debounced-save effect (lines 385-404) up to the point where it
starts the debounce timer: skip when the database handle is missing, skip
when the `applying` guard is set, skip when the serialization of the
current aggregates equals `lastSaved`; otherwise schedule a write of the
current aggregates (`some s`). -/
def saveEffect (hasDb applying : Bool) (s : AggState) (lastSaved : Option AggState) :
    Option AggState :=
  if ¬hasDb then none
  else if applying then none
  else if lastSaved = some s then none
  else some s

/-! ## `sanitizeLead` (leads.tsx lines 72-85)

`sanitizeLead` walks arbitrary JavaScript values, so its domain is modelled
by a JSON-with-undefined value type `JVal`.  `undef` is the `undefined`
marker; `jnull`, `jbool`, `jnum`, `jstr` are the JSON-safe literal types. -/

/-- JavaScript values reachable by `sanitizeLead`. -/
inductive JVal where
  | undef : JVal
  | jnull : JVal
  | jbool : Bool → JVal
  | jnum : Int → JVal
  | jstr : String → JVal
  | jarr : List JVal → JVal
  | jobj : List (String × JVal) → JVal
deriving Repr

/-- Whether a value is an array (`Array.isArray(v)`). -/
def JVal.isArr : JVal → Bool
  | .jarr _ => true
  | _ => false

/-- Whether a value is the undefined marker. -/
def JVal.isUndef : JVal → Bool
  | .undef => true
  | _ => false

/-- Truthiness of a value in an `if (v && typeof v === "object")` guard:
`undefined` and `null` are falsy; every non-null object is truthy; the code
path that reaches this guard has already excluded arrays. -/
def JVal.isObjTruthy : JVal → Bool
  | .jobj _ => true
  | _ => false

mutual

/-- `sanitizeLead(l)`: primitives, `null` and `undefined` are returned
unchanged (`if (!l || typeof l !== "object") return l`); otherwise the
value's `Object.entries` are rebuilt into a fresh object — for an array
argument those entries are its index/value pairs, so an array passed
directly to `sanitizeLead` comes back as a plain object keyed by indices. -/
def sanitizeLead : JVal → JVal
  | .undef => .undef
  | .jnull => .jnull
  | .jbool b => .jbool b
  | .jnum n => .jnum n
  | .jstr s => .jstr s
  | .jarr xs => .jobj (sanitizeArrEntries 0 xs)
  | .jobj fs => .jobj (sanitizeFields fs)

/-- The `for (const [k, v] of Object.entries(l))` loop over an object's
fields: drop `undefined` values, map arrays element-wise through
`sanitizeLead` (`v.map(sanitizeLead)`), recurse into non-null objects, and
copy every other value. -/
def sanitizeFields : List (String × JVal) → List (String × JVal)
  | [] => []
  | (k, v) :: rest =>
      match v with
      | .undef => sanitizeFields rest
      | .jarr ys => (k, .jarr (sanitizeElems ys)) :: sanitizeFields rest
      | .jobj fs => (k, .jobj (sanitizeFields fs)) :: sanitizeFields rest
      | other => (k, other) :: sanitizeFields rest

/-- `v.map(sanitizeLead)` over an array's elements. -/
def sanitizeElems : List JVal → List JVal
  | [] => []
  | v :: rest => sanitizeLead v :: sanitizeElems rest

/-- The same `Object.entries` loop, but over the index/value entries of an
array passed directly to `sanitizeLead` (entry keys are the decimal
indices). -/
def sanitizeArrEntries (i : Nat) : List JVal → List (String × JVal)
  | [] => []
  | v :: rest =>
      match v with
      | .undef => sanitizeArrEntries (i + 1) rest
      | .jarr ys => (toString i, .jarr (sanitizeElems ys)) :: sanitizeArrEntries (i + 1) rest
      | .jobj fs => (toString i, .jobj (sanitizeFields fs)) :: sanitizeArrEntries (i + 1) rest
      | other => (toString i, other) :: sanitizeArrEntries (i + 1) rest

end

mutual

/-- Whether a value contains the `undefined` marker anywhere (as itself, as
an array element, or as an object field value, at any depth). -/
def containsUndef : JVal → Bool
  | .undef => true
  | .jarr xs => containsUndefElems xs
  | .jobj fs => containsUndefFields fs
  | _ => false

/-- `containsUndef` over a list of array elements. -/
def containsUndefElems : List JVal → Bool
  | [] => false
  | v :: rest => containsUndef v || containsUndefElems rest

/-- `containsUndef` over object fields. -/
def containsUndefFields : List (String × JVal) → Bool
  | [] => false
  | (_, v) :: rest => containsUndef v || containsUndefFields rest

end

mutual

/-- Whether no array anywhere inside the value holds `undefined` or another
array directly as an element (object fields may hold arrays; arrays may
hold primitives and objects). -/
def arraysFlat : JVal → Bool
  | .jarr xs => arraysFlatElems xs
  | .jobj fs => arraysFlatFields fs
  | _ => true

/-- `arraysFlat` over array elements: additionally no element may be
`undefined` or an array itself. -/
def arraysFlatElems : List JVal → Bool
  | [] => true
  | v :: rest => !v.isUndef && !v.isArr && arraysFlat v && arraysFlatElems rest

/-- `arraysFlat` over object fields. -/
def arraysFlatFields : List (String × JVal) → Bool
  | [] => true
  | (_, v) :: rest => arraysFlat v && arraysFlatFields rest

end

mutual

/-- Modelled from the spec: "recursively strip any field whose value is
that marker before transmission, preserving all other fields and nested
structure" — remove object fields whose value is `undefined` at every
depth, keep arrays as arrays with their elements recursively cleaned, and
leave everything else unchanged. -/
def stripUndef : JVal → JVal
  | .undef => .undef
  | .jnull => .jnull
  | .jbool b => .jbool b
  | .jnum n => .jnum n
  | .jstr s => .jstr s
  | .jarr xs => .jarr (stripUndefElems xs)
  | .jobj fs => .jobj (stripUndefFields fs)

/-- `stripUndef` over array elements. -/
def stripUndefElems : List JVal → List JVal
  | [] => []
  | v :: rest => stripUndef v :: stripUndefElems rest

/-- `stripUndef` over object fields: fields whose value is the marker are
dropped. -/
def stripUndefFields : List (String × JVal) → List (String × JVal)
  | [] => []
  | (k, v) :: rest =>
      match v with
      | .undef => stripUndefFields rest
      | other => (k, stripUndef other) :: stripUndefFields rest

end

/-! ## Leads CRM (leads.tsx lines 20-36, 107-115, 280-282, 294-326) -/

/-- `const STATUSES = ["New", "Contacted", "Qualified", "Proposal", "Won", "Lost"]`. -/
def STATUSES : List String :=
  ["New", "Contacted", "Qualified", "Proposal", "Won", "Lost"]

/-- The literal priority strings `["High", "Medium", "Low"]` checked by
the coercion on lead import. -/
def PRIORITIES : List String := ["High", "Medium", "Low"]

/-- The `Status` union type. -/
inductive Status where
  | new | contacted | qualified | proposal | won | lost
deriving DecidableEq, Repr

/-- The `priority` union type. -/
inductive Priority where
  | high | medium | low
deriving DecidableEq, Repr

/-- The string each `Status` constructor denotes. -/
def Status.str : Status → String
  | .new => "New"
  | .contacted => "Contacted"
  | .qualified => "Qualified"
  | .proposal => "Proposal"
  | .won => "Won"
  | .lost => "Lost"

/-- The string each `Priority` constructor denotes. -/
def Priority.str : Priority → String
  | .high => "High"
  | .medium => "Medium"
  | .low => "Low"

/-- A `Lead` record.  Optional fields are `Option String` (`undefined` is
`none`); the timestamps are epoch milliseconds. -/
structure Lead where
  id : String
  name : String
  business : Option String
  email : Option String
  phone : Option String
  website : Option String
  status : Status
  priority : Priority
  source : Option String
  notes : Option String
  createdAt : Nat
  updatedAt : Nat
deriving DecidableEq, Repr

/-- `order.indexOf(status)` in `sortLeads` (the `order` array lists the six
statuses in `STATUSES` order). -/
def statusIdx : Status → Nat
  | .new => 0
  | .contacted => 1
  | .qualified => 2
  | .proposal => 3
  | .won => 4
  | .lost => 5

/-- The priority weight map `{High: 0, Medium: 1, Low: 2}` in `sortLeads`. -/
def prioIdx : Priority → Nat
  | .high => 0
  | .medium => 1
  | .low => 2

/-- The `sortLeads(a, b)` comparator: status order, then priority order,
then newest `updatedAt` first. -/
def sortLeadsCmp (a b : Lead) : Int :=
  let sdiff : Int := (statusIdx a.status : Int) - (statusIdx b.status : Int)
  if sdiff ≠ 0 then sdiff
  else
    let pdiff : Int := (prioIdx a.priority : Int) - (prioIdx b.priority : Int)
    if pdiff ≠ 0 then pdiff
    else (b.updatedAt : Int) - (a.updatedAt : Int)

/-- `.sort(sortLeads)`: JavaScript's stable sort with the comparator,
modelled as a stable merge sort keeping `a` before `b` when
`sortLeads(a,b) <= 0`. -/
def sortLeadsList (l : List Lead) : List Lead :=
  l.mergeSort (fun a b => sortLeadsCmp a b ≤ 0)

/-- A `Partial<Lead>` patch: every field may be absent.  A present
`business`/`email`/... carries `Option String` because those `Lead` fields
are themselves optional. -/
structure LeadPatch where
  id : Option String := none
  name : Option String := none
  business : Option (Option String) := none
  email : Option (Option String) := none
  phone : Option (Option String) := none
  website : Option (Option String) := none
  status : Option Status := none
  priority : Option Priority := none
  source : Option (Option String) := none
  notes : Option (Option String) := none
  createdAt : Option Nat := none
  updatedAt : Option Nat := none
deriving DecidableEq, Repr

/-- `{ ...l, ...patch, updatedAt: Date.now() }`: every field present in the
patch overwrites the lead's, and `updatedAt` is then overwritten with the
current time (`now`). -/
def applyPatch (l : Lead) (p : LeadPatch) (now : Nat) : Lead :=
  { id := p.id.getD l.id
    name := p.name.getD l.name
    business := p.business.getD l.business
    email := p.email.getD l.email
    phone := p.phone.getD l.phone
    website := p.website.getD l.website
    status := p.status.getD l.status
    priority := p.priority.getD l.priority
    source := p.source.getD l.source
    notes := p.notes.getD l.notes
    createdAt := p.createdAt.getD l.createdAt
    updatedAt := now }

/-- `updateLead(id, patch)` (lines 280-282): map over the collection,
patching exactly the leads whose id matches. -/
def updateLead (id : String) (p : LeadPatch) (now : Nat) (leads : List Lead) : List Lead :=
  leads.map (fun l => if l.id = id then applyPatch l p now else l)

/-- One row of an imported JSON array, as the import loop reads it: every
property access may find the field absent (`none`).  Rows that are not
objects at all would make the property accesses throw and are outside this
model. -/
structure RawRow where
  id : Option String := none
  name : Option String := none
  business : Option String := none
  email : Option String := none
  phone : Option String := none
  website : Option String := none
  status : Option String := none
  priority : Option String := none
  source : Option String := none
  notes : Option String := none
  createdAt : Option Nat := none
  updatedAt : Option Nat := none
deriving DecidableEq, Repr

/-- JavaScript `x || fallback` over an optional string: the empty string is
falsy, so it falls through to the fallback as well. -/
def truthyStr (o : Option String) : Option String :=
  match o with
  | some s => if s = "" then none else some s
  | none => none

/-- `Number(x) || now`: an absent field gives `NaN` and `0` is falsy, so
both fall back to `Date.now()`. -/
def numOrNow (o : Option Nat) (now : Nat) : Nat :=
  match o with
  | some n => if n = 0 then now else n
  | none => now

/-- The `Status` constructor denoted by one of the six status strings
(`New` for anything else; only reached behind an `includes` test). -/
def parseStatus (s : String) : Status :=
  if s = "Contacted" then .contacted
  else if s = "Qualified" then .qualified
  else if s = "Proposal" then .proposal
  else if s = "Won" then .won
  else if s = "Lost" then .lost
  else .new

/-- `STATUSES.includes(d.status) ? d.status : "New"` (an absent field is
`undefined`, which `includes` rejects). -/
def coerceStatus (o : Option String) : Status :=
  match o with
  | some s => if s ∈ STATUSES then parseStatus s else .new
  | none => .new

/-- The `Priority` constructor denoted by one of the three priority
strings (`Medium` for anything else; only reached behind `includes`). -/
def parsePriority (s : String) : Priority :=
  if s = "High" then .high
  else if s = "Low" then .low
  else .medium

/-- `["High","Medium","Low"].includes(d.priority) ? d.priority : "Medium"`. -/
def coercePriority (o : Option String) : Priority :=
  match o with
  | some s => if s ∈ PRIORITIES then parsePriority s else .medium
  | none => .medium

/-- The per-row normalization of `onImportJSON` (lines 302-316): default
the id to a fresh `uid()` (passed in as `fresh`), stringify the name with
`""` fallback, map empty/absent optional strings to `undefined`, coerce
unrecognized status and priority to `"New"`/`"Medium"`, and default the
timestamps to `Date.now()` (passed in as `now`). -/
def cleanRow (now : Nat) (fresh : String) (d : RawRow) : Lead :=
  { id := (truthyStr d.id).getD fresh
    name := d.name.getD ""
    business := truthyStr d.business
    email := truthyStr d.email
    phone := truthyStr d.phone
    website := truthyStr d.website
    status := coerceStatus d.status
    priority := coercePriority d.priority
    source := truthyStr d.source
    notes := truthyStr d.notes
    createdAt := numOrNow d.createdAt now
    updatedAt := numOrNow d.updatedAt now }

/-- `data.map((d) => ...)` with one fresh uid per row (`fresh i` is the
`uid()` the row at position `i` would draw). -/
def cleanRows (now : Nat) (fresh : Nat → String) (i : Nat) : List RawRow → List Lead
  | [] => []
  | d :: rest => cleanRow now (fresh i) d :: cleanRows now fresh (i + 1) rest

/-- What the file handed to `onImportJSON` parsed to: `notJson` when
`JSON.parse` throws, `nonArray` when it yields a non-array value, or the
array of rows. -/
inductive ImportData where
  | notJson : ImportData
  | nonArray : ImportData
  | arr : List RawRow → ImportData
deriving Repr

/-- `onImportJSON` (lines 294-326) restricted to its effect on the leads
collection: a parse failure is caught and changes nothing, a non-array
parse fails the `Array.isArray` test and changes nothing, and an array is
cleaned row by row, sorted, and replaces the collection. -/
def onImportJSON (now : Nat) (fresh : Nat → String) (data : ImportData)
    (old : List Lead) : List Lead :=
  match data with
  | .notJson => old
  | .nonArray => old
  | .arr rows => sortLeadsList (cleanRows now fresh 0 rows)

/-! ## Concrete sample values used by counterexamples and witnesses -/

/-- A lead with `createdAt = 1`, used to exhibit the behavior of
`updateLead` under a patch that carries `createdAt`. -/
def sampleLead : Lead :=
  { id := "a", name := "Ann", business := none, email := none, phone := none,
    website := none, status := .new, priority := .medium, source := none,
    notes := none, createdAt := 1, updatedAt := 1 }

/-- A patch whose `createdAt` field is present (allowed by `Partial<Lead>`). -/
def samplePatch : LeadPatch := { createdAt := some 2 }

/-- An import row with every recognized field present and valid. -/
def sampleGoodRow : RawRow :=
  { id := some "r1", name := some "Good", status := some "Contacted",
    priority := some "High", createdAt := some 10, updatedAt := some 10 }

/-- An import row whose status and priority strings are unrecognized. -/
def sampleBadRow : RawRow :=
  { id := some "r2", name := some "Bad", status := some "Garbage",
    priority := some "Urgent", createdAt := some 20, updatedAt := some 20 }

/-- A state with one undone daily challenge, for exercising `completeDaily`. -/
def sampleDailyState : AggState :=
  { xp := 0, tasks := [],
    daily := { date := "2025-01-01", items := [⟨"dc1", "Outreach", 35, false⟩] },
    top := { date := "2025-01-01", items := [] }, todos := ⟨[]⟩ }

/-- A state with one undone and one done top task, for exercising
`toggleTop` in both directions. -/
def sampleTopState : AggState :=
  { xp := 10, tasks := [⟨"close", "Close a new client", 50, some "Sales"⟩],
    daily := { date := "2025-01-01", items := [] },
    top := { date := "2025-01-01",
             items := [⟨"t1", none, "Ship site", 25, false⟩,
                       ⟨"t2", none, "Send invoices", 40, true⟩] },
    todos := ⟨[]⟩ }

/-- A state whose Top-Tasks list is at the capacity of 5 items. -/
def sampleFullTopState : AggState :=
  { xp := 0, tasks := [⟨"close", "Close a new client", 50, some "Sales"⟩],
    daily := { date := "2025-01-01", items := [] },
    top := { date := "2025-01-01",
             items := [⟨"t1", none, "A", 1, false⟩, ⟨"t2", none, "B", 1, false⟩,
                       ⟨"t3", none, "C", 1, false⟩, ⟨"t4", none, "D", 1, false⟩,
                       ⟨"t5", none, "E", 1, false⟩] },
    todos := ⟨[]⟩ }

/-- A remote snapshot carrying all five aggregate fields. -/
def sampleSnap : SnapData :=
  { xp := some 120, tasks := some [],
    daily := some ⟨"2025-01-01", []⟩, top := some ⟨"2025-01-01", []⟩,
    todos := some ⟨[]⟩ }

/-- A lead-shaped object with an `undefined` field and a flat array field,
for exercising `sanitizeLead`. -/
def sampleObj : JVal :=
  .jobj [("name", .jstr "Ann"), ("business", .undef),
         ("tags", .jarr [.jstr "vip", .jnum 3])]

/-- The JavaScript object a `Task` is held as in the tasks aggregate and
handed verbatim to the tracker's `setDoc` write: the task editor builds it
as `{id, label, xp, group: group.trim() || undefined}` (part_000 line 190),
so the `group` key is present and carries the `undefined` marker when no
group was given. -/
def taskToJVal (t : Task) : JVal :=
  .jobj [("id", .jstr t.id), ("label", .jstr t.label), ("xp", .jnum t.xp),
         ("group", match t.group with | some g => .jstr g | none => .undef)]

/-- A state whose tasks aggregate holds one task saved without a group. -/
def sampleUndefGroupState : AggState :=
  { xp := 0, tasks := [⟨"1", "Publish blog", 10, none⟩],
    daily := { date := "2025-01-01", items := [] },
    top := { date := "2025-01-01", items := [] }, todos := ⟨[]⟩ }

/-! ## Rank engine lemmas -/

/-- The tier-search loop computes `min (n / tierSpan) tierCount` provided it
starts at or below that value with enough fuel to reach it. -/
theorem xpLoopAux_spec (n : Nat) :
    ∀ fuel t : Nat,
      min (n / 2500) 8 ≤ t + fuel →
      t ≤ min (n / 2500) 8 →
      xpLoopAux n fuel t = min (n / 2500) 8 := by
  intro fuel
  induction fuel with
  | zero =>
      intro t h1 h2
      simp only [xpLoopAux]
      omega
  | succ fuel ih =>
      intro t h1 h2
      simp only [xpLoopAux]
      split
      case isTrue h =>
        simp only [cumulativeXPAtTierStart, tierTotalXP, XP_PER_SUBRANK, SUBRANKS,
          show TIERS.length = 8 from rfl] at h
        exact ih (t + 1) (by omega) (by omega)
      case isFalse h =>
        simp only [cumulativeXPAtTierStart, tierTotalXP, XP_PER_SUBRANK, SUBRANKS,
          show TIERS.length = 8 from rfl] at h
        omega

/-- The loop as `xpToRankN` calls it (fuel `TIERS.length + 1`, start 0). -/
theorem xpLoop_min (n : Nat) :
    xpLoopAux n (TIERS.length + 1) 0 = min (n / 2500) 8 :=
  xpLoopAux_spec n (TIERS.length + 1) 0
    (by simp only [show TIERS.length = 8 from rfl]; omega) (Nat.zero_le _)

/-- In range, the tier index is `min (n / tierSpan) (tierCount - 1)`. -/
theorem xpToRankN_tierIndex (n : Nat) (hn : n ≤ maxXPAllTiers) :
    (xpToRankN n).tierIndex = min (n / 2500) 7 := by
  have hmax : maxXPAllTiers = 20000 := rfl
  unfold xpToRankN
  rw [xpLoop_min]
  dsimp only
  split
  case isTrue h =>
    simp only [show TIERS.length = 8 from rfl] at h ⊢
    omega
  case isFalse h =>
    simp only [show TIERS.length = 8 from rfl] at h ⊢
    omega

/-- Below the cap the returned subrank is
`max 1 (SUBRANKS - (n % tierSpan) / XP_PER_SUBRANK)`. -/
theorem xpToRankN_subrank (n : Nat) (hn : n < maxXPAllTiers) :
    (xpToRankN n).subrank =
      max 1 ((5 : Int) - ((n % 2500) / 500 : Nat)) := by
  have hmax : maxXPAllTiers = 20000 := rfl
  unfold xpToRankN
  rw [xpLoop_min]
  dsimp only
  rw [if_neg (by simp only [show TIERS.length = 8 from rfl]; omega)]
  simp only [cumulativeXPAtTierStart, tierTotalXP, XP_PER_SUBRANK, SUBRANKS]
  have hmin : min (n / 2500) 8 = n / 2500 := by omega
  rw [hmin]
  have hsub : n - n / 2500 * 2500 = n % 2500 := by omega
  rw [hsub]
  norm_num

/-- The subrank is always at least 1. -/
theorem one_le_subrankN (n : Nat) : 1 ≤ (xpToRankN n).subrank := by
  unfold xpToRankN
  dsimp only
  split
  · exact le_refl 1
  · exact le_max_left _ _

/-- `xpToRank` on a pre-clamped input is the core on its `toNat`. -/
theorem xpToRank_in_range (xp : Int) (h0 : 0 ≤ xp) (h1 : xp ≤ (maxXPAllTiers : Int)) :
    xpToRank xp = xpToRankN xp.toNat := by
  unfold xpToRank
  congr 1
  omega

/-- C1: with the source configuration (8 tiers, 5 subranks per tier, 500 XP
per subrank, hence `maxXPAllTiers = 20000`), `xpToRank 20000` yields the
last tier (index `TIERS.length - 1`), subrank 1 and both progress values 1,
while `xpToRank 0` yields tier 0, subrank `SUBRANKS = 5` and both progress
values 0. -/
theorem rank_boundary_thm :
    maxXPAllTiers = 20000 ∧
    xpToRank (maxXPAllTiers : Int) =
      { tierIndex := TIERS.length - 1, subrank := 1, withinXP := 2500,
        progress := 1, progressWithinSubrank := 1 } ∧
    xpToRank 0 =
      { tierIndex := 0, subrank := (SUBRANKS : Int), withinXP := 0,
        progress := 0, progressWithinSubrank := 0 } := by
  refine ⟨rfl, ?_, ?_⟩
  · have h1 : xpToRank (maxXPAllTiers : Int) = xpToRankN 20000 := rfl
    rw [h1]
    unfold xpToRankN
    rw [xpLoop_min]
    norm_num [show TIERS.length = 8 from rfl, XP_PER_SUBRANK, SUBRANKS]
  · have h0 : xpToRank 0 = xpToRankN 0 := rfl
    rw [h0]
    unfold xpToRankN
    rw [xpLoop_min]
    norm_num [cumulativeXPAtTierStart, tierTotalXP, XP_PER_SUBRANK, SUBRANKS,
      show TIERS.length = 8 from rfl]

/-- C2: for `0 ≤ a < b ≤ maxXP` the tier index never decreases, and within
one tier the subrank never increases as XP grows (it counts down). -/
theorem rank_monotone_thm (a b : Int) (h0 : 0 ≤ a) (hab : a < b)
    (hb : b ≤ (maxXPAllTiers : Int)) :
    (xpToRank a).tierIndex ≤ (xpToRank b).tierIndex ∧
    ((xpToRank a).tierIndex = (xpToRank b).tierIndex →
      (xpToRank b).subrank ≤ (xpToRank a).subrank) := by
  have hmax : maxXPAllTiers = 20000 := rfl
  have ea : xpToRank a = xpToRankN a.toNat :=
    xpToRank_in_range a h0 (by omega)
  have eb : xpToRank b = xpToRankN b.toNat :=
    xpToRank_in_range b (by omega) hb
  set na := a.toNat with hna
  set nb := b.toNat with hnb
  have hlt : na < nb := by omega
  have hble : nb ≤ maxXPAllTiers := by omega
  have hta := xpToRankN_tierIndex na (by omega)
  have htb := xpToRankN_tierIndex nb hble
  constructor
  · rw [ea, eb, hta, htb]
    omega
  · intro hEq
    rw [ea, eb] at hEq ⊢
    rcases Nat.lt_or_ge nb maxXPAllTiers with hnb20 | hnb20
    · -- both below the cap: compare the per-tier remainders
      have hsa := xpToRankN_subrank na (by omega)
      have hsb := xpToRankN_subrank nb hnb20
      rw [hta, htb] at hEq
      have hrem : na % 2500 < nb % 2500 := by omega
      have hdivle : (na % 2500) / 500 ≤ (nb % 2500) / 500 :=
        Nat.div_le_div_right (Nat.le_of_lt hrem)
      rw [hsa, hsb]
      refine max_le_max le_rfl ?_
      omega
    · -- b is at the cap: its subrank is 1, the least possible value
      have hnbv : nb = 20000 := by omega
      rw [hnbv]
      have hone : (xpToRankN 20000).subrank = 1 := by decide
      rw [hone]
      exact one_le_subrankN na

/-! ## Domain store theorems -/

/-- When every item carrying the id is already done, `completeDaily` is a
complete no-op: its map changes no item and its `find?` grants nothing. -/
theorem completeDaily_noop (id : String) (t : AggState)
    (h : ∀ d ∈ t.daily.items, d.id = id → d.done = true) :
    completeDaily id t = t := by
  have hnone : t.daily.items.find? (fun d => d.id = id ∧ ¬d.done) = none := by
    rw [List.find?_eq_none]
    intro d hd
    by_cases hid : d.id = id
    · simp [hid, h d hd hid]
    · simp [hid]
  have hmapid : t.daily.items.map
      (fun d => if d.id = id then { d with done := true } else d) = t.daily.items := by
    have hfix : ∀ d ∈ t.daily.items,
        (if d.id = id then { d with done := true } else d) = d := by
      intro d hd
      by_cases hid : d.id = id
      · have hdone := h d hd hid
        cases d
        simp_all
      · simp [hid]
    simpa using List.map_congr_left hfix
  unfold completeDaily
  rw [hnone, hmapid]

/-- C3: with an undone item carrying the requested id (`find?` of the code's
predicate returns it), and the XP total inside the clamp range, the first
`completeDaily` adds exactly the item's XP and marks every item with that id
done; and a second `completeDaily` with the same id is a complete no-op (the
state, XP total included, is unchanged), so the XP is granted exactly once. -/
theorem completeDaily_grants_once (s : AggState) (id : String) (j : DailyItem)
    (hfind : s.daily.items.find? (fun d => d.id = id ∧ ¬d.done) = some j)
    (h0 : 0 ≤ s.xp) (h1 : s.xp + j.xp ≤ (maxXPAllTiers : Int)) (hj : 0 ≤ j.xp) :
    (completeDaily id s).xp = s.xp + j.xp ∧
    (∀ d ∈ (completeDaily id s).daily.items, d.id = id → d.done = true) ∧
    completeDaily id (completeDaily id s) = completeDaily id s := by
  have e : completeDaily id s =
      { addXP j.xp s with daily := { s.daily with
          items := s.daily.items.map
            (fun d => if d.id = id then { d with done := true } else d) } } := by
    unfold completeDaily
    rw [hfind]
    rfl
  refine ⟨?_, ?_, ?_⟩
  · rw [e]
    simp only [addXP]
    omega
  · rw [e]
    rintro d hd hid
    simp only [List.mem_map] at hd
    obtain ⟨d0, _, rfl⟩ := hd
    by_cases h : d0.id = id
    · simp [h]
    · simp only [if_neg h] at hid ⊢
      exact absurd hid h
  · -- every item with the id is done after the first call, so the second
    -- call is a no-op
    apply completeDaily_noop
    rw [e]
    rintro d hd hid
    simp only [List.mem_map] at hd
    obtain ⟨d0, _, rfl⟩ := hd
    by_cases h : d0.id = id
    · simp [h]
    · simp only [if_neg h] at hid ⊢
      exact absurd hid h

/-- C4: when the list holds an item with the requested id (the code's
`find?` returns `b`), `toggleTop` flips the `done` flag of exactly the
matching items, leaving all others in place; an undone→done transition adds
the item's XP (exactly, within the clamp range), while a done→undone
transition leaves the XP total untouched — XP is never revoked. -/
theorem toggleTop_thm (s : AggState) (id : String) (b : TopItem)
    (hfind : s.top.items.find? (fun i => i.id = id) = some b) :
    (∀ k : Nat, ∀ i : TopItem, s.top.items[k]? = some i →
      (i.id = id → (toggleTop id s).top.items[k]? = some { i with done := ¬i.done }) ∧
      (i.id ≠ id → (toggleTop id s).top.items[k]? = some i)) ∧
    (b.done = true → (toggleTop id s).xp = s.xp) ∧
    (b.done = false → 0 ≤ s.xp → 0 ≤ b.xp → s.xp + b.xp ≤ (maxXPAllTiers : Int) →
      (toggleTop id s).xp = s.xp + b.xp) := by
  refine ⟨?_, ?_, ?_⟩
  · intro k i hk
    unfold toggleTop
    dsimp only
    constructor
    · intro hid
      rw [List.getElem?_map, hk]
      simp [hid]
    · intro hid
      rw [List.getElem?_map, hk]
      simp [hid]
  · intro hdone
    unfold toggleTop
    rw [hfind]
    simp [hdone]
  · intro hdone hle hb hcap
    have hmax : maxXPAllTiers = 20000 := rfl
    have et : toggleTop id s = { addXP b.xp s with top := { s.top with
        items := s.top.items.map
          (fun i => if i.id = id then { i with done := ¬i.done } else i) } } := by
      unfold toggleTop
      rw [hfind]
      dsimp only
      rw [hdone]
      rfl
    rw [et]
    simp only [addXP]
    omega

/-- C5: with the Top-Tasks list already at its capacity of 5 items, both
`addTopFromTask` and `addTopCustom` return the state unchanged — no item is
appended and no other field is touched. -/
theorem top_capacity_thm (s : AggState) (taskId label fresh1 fresh2 : String)
    (xpVal : Int) (hlen : s.top.items.length = 5) :
    addTopFromTask taskId fresh1 s = s ∧ addTopCustom label xpVal fresh2 s = s := by
  constructor
  · unfold addTopFromTask
    cases h : s.tasks.find? (fun x => x.id = taskId) with
    | none => rfl
    | some t =>
        dsimp only
        rw [if_pos (by omega)]
  · unfold addTopCustom
    by_cases h : label.trim = ""
    · rw [if_pos h]
    · rw [if_neg h]
      dsimp only
      rw [if_pos (by omega)]

/-- C6: after a remote snapshot whose five aggregate fields are all present
and well-formed is applied, the save effect schedules nothing, whatever the
state of the `applying` guard: either the guard is still set and the effect
skips, or the serialization of the freshly applied aggregates equals the
recorded `lastSaved` and the comparison short-circuits before the debounce
timer would be started — so applying a snapshot never triggers a remote
write of identical content. -/
theorem sync_loop_safety_thm (s : AggState) (today : String) (snap : SnapData)
    (x : Int) (ts : List Task) (dl : DailySlot) (tp : TopSlot) (td : TodoSlot)
    (hx : snap.xp = some x) (hts : snap.tasks = some ts) (hdl : snap.daily = some dl)
    (htp : snap.top = some tp) (htd : snap.todos = some td) :
    ∀ applying : Bool,
      saveEffect true applying (applySnapshot s today snap).1
        (applySnapshot s today snap).2 = none := by
  intro applying
  unfold applySnapshot saveEffect
  rw [hx, hts, hdl, htp, htd]
  cases applying <;> simp

/-! ## Sanitization theorems -/

mutual

/-- On values that are not arrays and whose arrays hold neither `undefined`
nor other arrays directly as elements, `sanitizeLead` computes exactly the
spec's recursive strip. -/
theorem sanitize_eq_strip (v : JVal) (hflat : arraysFlat v = true)
    (harr : v.isArr = false) : sanitizeLead v = stripUndef v := by
  cases v with
  | undef => rfl
  | jnull => rfl
  | jbool b => rfl
  | jnum n => rfl
  | jstr s => rfl
  | jarr xs => simp [JVal.isArr] at harr
  | jobj fs =>
      simp only [sanitizeLead, stripUndef]
      simp only [arraysFlat] at hflat
      rw [sanitizeFields_eq_strip fs hflat]

/-- `sanitize_eq_strip` for the field loop. -/
theorem sanitizeFields_eq_strip (fs : List (String × JVal))
    (h : arraysFlatFields fs = true) : sanitizeFields fs = stripUndefFields fs := by
  match fs with
  | [] => rfl
  | (k, v) :: rest =>
      simp only [arraysFlatFields, Bool.and_eq_true] at h
      obtain ⟨hv, hrest⟩ := h
      have ihrest := sanitizeFields_eq_strip rest hrest
      cases v with
      | undef => simpa [sanitizeFields, stripUndefFields] using ihrest
      | jnull => simpa [sanitizeFields, stripUndefFields, stripUndef] using ihrest
      | jbool b => simpa [sanitizeFields, stripUndefFields, stripUndef] using ihrest
      | jnum n => simpa [sanitizeFields, stripUndefFields, stripUndef] using ihrest
      | jstr s => simpa [sanitizeFields, stripUndefFields, stripUndef] using ihrest
      | jarr ys =>
          simp only [arraysFlat] at hv
          simp only [sanitizeFields, stripUndefFields, stripUndef]
          rw [sanitizeElems_eq_strip ys hv, ihrest]
      | jobj gs =>
          simp only [arraysFlat] at hv
          simp only [sanitizeFields, stripUndefFields, stripUndef]
          rw [sanitizeFields_eq_strip gs hv, ihrest]

/-- `sanitize_eq_strip` for `v.map(sanitizeLead)` over array elements. -/
theorem sanitizeElems_eq_strip (xs : List JVal)
    (h : arraysFlatElems xs = true) : sanitizeElems xs = stripUndefElems xs := by
  match xs with
  | [] => rfl
  | v :: rest =>
      simp only [arraysFlatElems, Bool.and_eq_true] at h
      obtain ⟨⟨⟨hu, ha⟩, hv⟩, hrest⟩ := h
      simp only [sanitizeElems, stripUndefElems]
      rw [sanitize_eq_strip v hv (by simpa using ha), sanitizeElems_eq_strip rest hrest]

end

mutual

/-- On non-array, non-`undefined` values whose arrays hold neither
`undefined` nor other arrays directly as elements, the output of
`sanitizeLead` is free of the `undefined` marker. -/
theorem sanitize_no_undef (v : JVal) (hflat : arraysFlat v = true)
    (hu : v.isUndef = false) (harr : v.isArr = false) :
    containsUndef (sanitizeLead v) = false := by
  cases v with
  | undef => simp [JVal.isUndef] at hu
  | jnull => rfl
  | jbool b => rfl
  | jnum n => rfl
  | jstr s => rfl
  | jarr xs => simp [JVal.isArr] at harr
  | jobj fs =>
      simp only [arraysFlat] at hflat
      simp only [sanitizeLead, containsUndef]
      exact sanitizeFields_no_undef fs hflat

/-- `sanitize_no_undef` for the field loop. -/
theorem sanitizeFields_no_undef (fs : List (String × JVal))
    (h : arraysFlatFields fs = true) :
    containsUndefFields (sanitizeFields fs) = false := by
  match fs with
  | [] => rfl
  | (k, v) :: rest =>
      simp only [arraysFlatFields, Bool.and_eq_true] at h
      obtain ⟨hv, hrest⟩ := h
      have ihrest := sanitizeFields_no_undef rest hrest
      cases v with
      | undef => simpa [sanitizeFields] using ihrest
      | jnull => simpa [sanitizeFields, containsUndefFields, containsUndef] using ihrest
      | jbool b => simpa [sanitizeFields, containsUndefFields, containsUndef] using ihrest
      | jnum n => simpa [sanitizeFields, containsUndefFields, containsUndef] using ihrest
      | jstr s => simpa [sanitizeFields, containsUndefFields, containsUndef] using ihrest
      | jarr ys =>
          simp only [arraysFlat] at hv
          simp only [sanitizeFields, containsUndefFields, containsUndef]
          rw [sanitizeElems_no_undef ys hv, ihrest]
          rfl
      | jobj gs =>
          simp only [arraysFlat] at hv
          simp only [sanitizeFields, containsUndefFields, containsUndef]
          rw [sanitizeFields_no_undef gs hv, ihrest]
          rfl

/-- `sanitize_no_undef` for `v.map(sanitizeLead)` over array elements. -/
theorem sanitizeElems_no_undef (xs : List JVal)
    (h : arraysFlatElems xs = true) :
    containsUndefElems (sanitizeElems xs) = false := by
  match xs with
  | [] => rfl
  | v :: rest =>
      simp only [arraysFlatElems, Bool.and_eq_true] at h
      obtain ⟨⟨⟨hu, ha⟩, hv⟩, hrest⟩ := h
      simp only [sanitizeElems, containsUndefElems]
      rw [sanitize_no_undef v hv (by simpa using hu) (by simpa using ha),
        sanitizeElems_no_undef rest hrest]
      rfl

end

/-- C7 counterexample: the original claim ("every value written to the
remote document is free of the undefined marker, with undefined-valued
fields recursively removed") fails on both cited write paths.  On the leads
path, for the object `{a: [undefined]}` the output of `sanitizeLead` still
contains the marker — `v.map(sanitizeLead)` maps an `undefined` array
element to itself instead of removing it.  On the tracker path, the
debounced save effect schedules the aggregates verbatim with no
sanitization at all, so a task saved without a group — whose object carries
`group: undefined` — is handed to the remote write unstripped. -/
theorem sanitizeLead_undef_survives_cex :
    containsUndef (sanitizeLead (.jobj [("a", .jarr [.undef])])) = true ∧
    saveEffect true false sampleUndefGroupState none = some sampleUndefGroupState ∧
    containsUndef (taskToJVal ⟨"1", "Publish blog", 10, none⟩) = true := by
  refine ⟨?_, ?_, ?_⟩
  · simp [sanitizeLead, sanitizeFields, sanitizeElems, containsUndef,
      containsUndefFields, containsUndefElems]
  · decide
  · simp [taskToJVal, containsUndef, containsUndefFields]

/-- C7 (amended): only the leads write path sanitizes.  There,
`sanitizeLead` removes exactly the object fields whose value is `undefined`
at every nesting depth (agreeing with the spec's recursive strip, so all
other fields and the nested structure are preserved), and its output is
free of the marker — provided the input is an object whose arrays hold
neither `undefined` nor other arrays directly as elements (an `undefined`
directly inside an array survives the element-wise map).  The tracker's
debounced `setDoc` write performs no stripping: it schedules the aggregates
themselves, and the object of a task saved without a group still carries
the `undefined` marker when transmitted. -/
theorem sanitizeLead_thm (v : JVal) (harr : v.isArr = false)
    (hflat : arraysFlat v = true) (t : Task) (ht : t.group = none)
    (s : AggState) (ls : Option AggState) (hne : ls ≠ some s) :
    sanitizeLead v = stripUndef v ∧
    (v.isUndef = false → containsUndef (sanitizeLead v) = false) ∧
    saveEffect true false s ls = some s ∧
    containsUndef (taskToJVal t) = true := by
  refine ⟨sanitize_eq_strip v hflat harr,
    fun hu => sanitize_no_undef v hflat hu harr, ?_, ?_⟩
  · simp [saveEffect, hne]
  · simp [taskToJVal, ht, containsUndef, containsUndefFields]

/-! ## Leads CRM theorems -/

/-- An option that never holds a string of `STATUSES` is coerced to `New`. -/
theorem coerceStatus_not_in (o : Option String)
    (h : ∀ sv, o = some sv → sv ∉ STATUSES) : coerceStatus o = .new := by
  cases o with
  | none => rfl
  | some sv =>
      unfold coerceStatus
      dsimp only
      rw [if_neg (h sv rfl)]

/-- An option that never holds a string of `PRIORITIES` is coerced to
`Medium`. -/
theorem coercePriority_not_in (o : Option String)
    (h : ∀ pv, o = some pv → pv ∉ PRIORITIES) : coercePriority o = .medium := by
  cases o with
  | none => rfl
  | some pv =>
      unfold coercePriority
      dsimp only
      rw [if_neg (h pv rfl)]

/-- C8: importing an array of one well-formed lead and one lead with an
unrecognized status yields a collection of exactly two leads; the bad row is
admitted with its status coerced to `New` (and an unrecognized priority
coerced to `Medium`) while the good row keeps its status — a single bad row
never rejects the import. -/
theorem import_robustness_thm (now : Nat) (fresh : Nat → String)
    (old : List Lead) (r1 r2 : RawRow) (sv1 : String)
    (h1 : r1.status = some sv1) (hv : sv1 ∈ STATUSES)
    (hinv : ∀ sv, r2.status = some sv → sv ∉ STATUSES)
    (hpinv : ∀ pv, r2.priority = some pv → pv ∉ PRIORITIES) :
    (onImportJSON now fresh (.arr [r1, r2]) old).length = 2 ∧
    cleanRow now (fresh 0) r1 ∈ onImportJSON now fresh (.arr [r1, r2]) old ∧
    cleanRow now (fresh 1) r2 ∈ onImportJSON now fresh (.arr [r1, r2]) old ∧
    (cleanRow now (fresh 0) r1).status.str = sv1 ∧
    (cleanRow now (fresh 1) r2).status = Status.new ∧
    (cleanRow now (fresh 1) r2).priority = Priority.medium := by
  have hrows : cleanRows now fresh 0 [r1, r2] =
      [cleanRow now (fresh 0) r1, cleanRow now (fresh 1) r2] := by
    simp [cleanRows]
  refine ⟨?_, ?_, ?_, ?_, ?_, ?_⟩
  · simp [onImportJSON, sortLeadsList, hrows]
  · simp [onImportJSON, sortLeadsList, hrows]
  · simp [onImportJSON, sortLeadsList, hrows]
  · simp only [cleanRow]
    rw [h1]
    fin_cases hv <;> rfl
  · simp only [cleanRow]
    exact coerceStatus_not_in _ hinv
  · simp only [cleanRow]
    exact coercePriority_not_in _ hpinv

/-- C9 counterexample: the claim fails for a patch that itself carries
`createdAt` — `{...l, ...patch, updatedAt: now}` lets the patch overwrite
`createdAt`, so updating `sampleLead` (whose `createdAt` is 1) with
`samplePatch = {createdAt: 2}` produces a lead whose `createdAt` is 2. -/
theorem updateLead_createdAt_cex :
    (updateLead "a" samplePatch 5 [sampleLead]).map (fun l => l.createdAt) = [2] ∧
    sampleLead.createdAt = 1 := by
  constructor <;> rfl

/-- C9 (amended): for every patch that does not itself carry `createdAt`,
`updateLead` stamps each matching lead's `updatedAt` with the current time,
leaves its `createdAt` unchanged, and leaves every lead with a different id
exactly as it was (position by position). -/
theorem updateLead_thm (id : String) (p : LeadPatch) (now : Nat)
    (leads : List Lead) (hp : p.createdAt = none) :
    (updateLead id p now leads).length = leads.length ∧
    ∀ k : Nat, ∀ l : Lead, leads[k]? = some l →
      (l.id = id → (updateLead id p now leads)[k]? = some (applyPatch l p now) ∧
        (applyPatch l p now).updatedAt = now ∧
        (applyPatch l p now).createdAt = l.createdAt) ∧
      (l.id ≠ id → (updateLead id p now leads)[k]? = some l) := by
  refine ⟨by simp [updateLead], ?_⟩
  intro k l hk
  constructor
  · intro hid
    refine ⟨?_, rfl, ?_⟩
    · simp [updateLead, List.getElem?_map, hk, hid]
    · simp [applyPatch, hp]
  · intro hid
    simp [updateLead, List.getElem?_map, hk, hid]

/-- C10: when the imported file is not parseable JSON, or parses to a value
that is not an array, `onImportJSON` leaves the leads collection exactly as
it was — the import is all-or-nothing at the file level. -/
theorem import_no_partial_thm (now : Nat) (fresh : Nat → String)
    (old : List Lead) (data : ImportData)
    (h : ∀ rows, data ≠ ImportData.arr rows) :
    onImportJSON now fresh data old = old := by
  cases data with
  | notJson => rfl
  | nonArray => rfl
  | arr rows => exact absurd rfl (h rows)

/-! ## Witnesses -/

/-- Witness for C2 at `a = 2600`, `b = 2700` (same tier, tier 1). -/
theorem rank_monotone_witness :
    (xpToRank 2600).tierIndex ≤ (xpToRank 2700).tierIndex ∧
    (xpToRank 2700).subrank ≤ (xpToRank 2600).subrank :=
  ⟨(rank_monotone_thm 2600 2700 (by decide) (by decide) (by decide)).1,
   (rank_monotone_thm 2600 2700 (by decide) (by decide) (by decide)).2 (by decide)⟩

/-- Witness for C3 on `sampleDailyState` and id `dc1`. -/
theorem completeDaily_witness :
    (completeDaily "dc1" sampleDailyState).xp = sampleDailyState.xp + 35 ∧
    completeDaily "dc1" (completeDaily "dc1" sampleDailyState) =
      completeDaily "dc1" sampleDailyState :=
  ⟨(completeDaily_grants_once sampleDailyState "dc1" ⟨"dc1", "Outreach", 35, false⟩
      (by decide) (by decide) (by decide) (by decide)).1,
   (completeDaily_grants_once sampleDailyState "dc1" ⟨"dc1", "Outreach", 35, false⟩
      (by decide) (by decide) (by decide) (by decide)).2.2⟩

/-- Witness for C4 on `sampleTopState`: toggling the undone `t1` flips it
and grants its 25 XP; toggling the done `t2` leaves the XP total alone. -/
theorem toggleTop_witness :
    (toggleTop "t1" sampleTopState).top.items[0]? =
      some ⟨"t1", none, "Ship site", 25, true⟩ ∧
    (toggleTop "t1" sampleTopState).xp = sampleTopState.xp + 25 ∧
    (toggleTop "t2" sampleTopState).xp = sampleTopState.xp :=
  ⟨((toggleTop_thm sampleTopState "t1" ⟨"t1", none, "Ship site", 25, false⟩
      (by decide)).1 0 ⟨"t1", none, "Ship site", 25, false⟩ rfl).1 rfl,
   (toggleTop_thm sampleTopState "t1" ⟨"t1", none, "Ship site", 25, false⟩
      (by decide)).2.2 rfl (by decide) (by decide) (by decide),
   (toggleTop_thm sampleTopState "t2" ⟨"t2", none, "Send invoices", 40, true⟩
      (by decide)).2.1 rfl⟩

/-- Witness for C5 on `sampleFullTopState`. -/
theorem top_capacity_witness :
    addTopFromTask "close" "f1" sampleFullTopState = sampleFullTopState ∧
    addTopCustom "Extra" 10 "f2" sampleFullTopState = sampleFullTopState :=
  top_capacity_thm sampleFullTopState "close" "Extra" "f1" "f2" 10 (by decide)

/-- Witness for C6 on `sampleTopState` and `sampleSnap`, for both values of
the `applying` guard. -/
theorem sync_loop_safety_witness :
    saveEffect true true (applySnapshot sampleTopState "2025-01-01" sampleSnap).1
      (applySnapshot sampleTopState "2025-01-01" sampleSnap).2 = none ∧
    saveEffect true false (applySnapshot sampleTopState "2025-01-01" sampleSnap).1
      (applySnapshot sampleTopState "2025-01-01" sampleSnap).2 = none :=
  ⟨sync_loop_safety_thm sampleTopState "2025-01-01" sampleSnap 120 []
      ⟨"2025-01-01", []⟩ ⟨"2025-01-01", []⟩ ⟨[]⟩ rfl rfl rfl rfl rfl true,
   sync_loop_safety_thm sampleTopState "2025-01-01" sampleSnap 120 []
      ⟨"2025-01-01", []⟩ ⟨"2025-01-01", []⟩ ⟨[]⟩ rfl rfl rfl rfl rfl false⟩

/-- Witness for C7 (amended) on `sampleObj` (leads path) and on a
group-less task with `sampleTopState` (tracker path). -/
theorem sanitizeLead_witness :
    sanitizeLead sampleObj = stripUndef sampleObj ∧
    containsUndef (sanitizeLead sampleObj) = false ∧
    saveEffect true false sampleTopState none = some sampleTopState ∧
    containsUndef (taskToJVal ⟨"1", "Publish blog", 10, none⟩) = true :=
  ⟨(sanitizeLead_thm sampleObj rfl
      (by simp [sampleObj, arraysFlat, arraysFlatFields, arraysFlatElems,
        JVal.isUndef, JVal.isArr])
      ⟨"1", "Publish blog", 10, none⟩ rfl sampleTopState none (by decide)).1,
   (sanitizeLead_thm sampleObj rfl
      (by simp [sampleObj, arraysFlat, arraysFlatFields, arraysFlatElems,
        JVal.isUndef, JVal.isArr])
      ⟨"1", "Publish blog", 10, none⟩ rfl sampleTopState none (by decide)).2.1 rfl,
   (sanitizeLead_thm sampleObj rfl
      (by simp [sampleObj, arraysFlat, arraysFlatFields, arraysFlatElems,
        JVal.isUndef, JVal.isArr])
      ⟨"1", "Publish blog", 10, none⟩ rfl sampleTopState none (by decide)).2.2.1,
   (sanitizeLead_thm sampleObj rfl
      (by simp [sampleObj, arraysFlat, arraysFlatFields, arraysFlatElems,
        JVal.isUndef, JVal.isArr])
      ⟨"1", "Publish blog", 10, none⟩ rfl sampleTopState none (by decide)).2.2.2⟩

/-- Witness for C8 on `sampleGoodRow` and `sampleBadRow`. -/
theorem import_robustness_witness :
    (onImportJSON 99 (fun i => toString i)
      (.arr [sampleGoodRow, sampleBadRow]) []).length = 2 ∧
    cleanRow 99 (toString 0) sampleGoodRow ∈
      onImportJSON 99 (fun i => toString i) (.arr [sampleGoodRow, sampleBadRow]) [] ∧
    cleanRow 99 (toString 1) sampleBadRow ∈
      onImportJSON 99 (fun i => toString i) (.arr [sampleGoodRow, sampleBadRow]) [] ∧
    (cleanRow 99 (toString 0) sampleGoodRow).status.str = "Contacted" ∧
    (cleanRow 99 (toString 1) sampleBadRow).status = Status.new ∧
    (cleanRow 99 (toString 1) sampleBadRow).priority = Priority.medium :=
  import_robustness_thm 99 (fun i => toString i) [] sampleGoodRow sampleBadRow
    "Contacted" rfl (by decide)
    (by
      intro sv h
      simp only [show sampleBadRow.status = some "Garbage" from rfl,
        Option.some.injEq] at h
      subst h
      decide)
    (by
      intro pv h
      simp only [show sampleBadRow.priority = some "Urgent" from rfl,
        Option.some.injEq] at h
      subst h
      decide)

/-- Witness for C9 (amended) on `sampleLead` with the empty patch. -/
theorem updateLead_witness :
    (sampleLead.id = "a" →
      (updateLead "a" {} 5 [sampleLead])[0]? = some (applyPatch sampleLead {} 5) ∧
      (applyPatch sampleLead {} 5).updatedAt = 5 ∧
      (applyPatch sampleLead {} 5).createdAt = sampleLead.createdAt) ∧
    (sampleLead.id ≠ "a" → (updateLead "a" {} 5 [sampleLead])[0]? = some sampleLead) :=
  (updateLead_thm "a" {} 5 [sampleLead] rfl).2 0 sampleLead rfl

/-- Witness for C10: a file that fails to parse leaves the collection as it
was. -/
theorem import_no_partial_witness :
    onImportJSON 99 (fun i => toString i) ImportData.notJson [sampleLead] =
      [sampleLead] :=
  import_no_partial_thm 99 (fun i => toString i) [sampleLead] .notJson
    (fun rows h => ImportData.noConfusion h)

end Clientwatch
